import Mathlib

/-!
Shallow embedding of the allocation engine of `src/app.py`
(Multi-Deal Availability-Based Allocation Tool).

Modelling conventions:
* Python floats are modelled as rationals (`ℚ`); the code performs only
  field arithmetic guarded against division by zero, so the rational
  model is exact where the float code is exact up to rounding.
* A pandas cell that is missing or holds non-numeric text is modelled as
  `Option ℚ` in the raw tables; `pd.to_numeric(..., errors="coerce").fillna(0.0)`
  becomes `Option.getD 0`, and `fillna(False).astype(bool)` becomes
  `Option.getD false`.
* A pandas `Series` indexed by vehicle name, reindexed over the vehicle
  list with `fillna(0.0)`, is modelled row-wise: the allocation of a
  vehicle is a function of the vehicle record itself (vehicle names are
  assumed distinct, as the `set_index`/`reindex` idiom requires).
* Python's `str.strip` is modelled by `pyStrip` (drop whitespace from
  both ends).
-/

namespace AssetAlloc

/-- A cleaned vehicle row: `clean_vehicles` output of `src/app.py` lines 213-233. -/
structure Vehicle where
  name : String
  cash : ℚ
  unfunded : ℚ
  uncalled : ℚ
  targetHold : ℚ
  revolverOn : Bool
  ddtlOn : Bool
deriving Repr, DecidableEq

/-- A raw vehicle row as edited in the UI grid: numeric cells may be missing
or non-numeric (`none`), toggle cells may be missing (`none`). -/
structure RawVehicle where
  name : String
  cash : Option ℚ
  unfunded : Option ℚ
  uncalled : Option ℚ
  targetHold : Option ℚ
  revolverOn : Option Bool
  ddtlOn : Option Bool
deriving Repr, DecidableEq

/-- Python `str.strip`: remove leading and trailing whitespace. -/
def pyStrip (s : String) : String :=
  ⟨(((s.data.dropWhile Char.isWhitespace).reverse.dropWhile Char.isWhitespace).reverse)⟩

/-- `clean_vehicles` (`src/app.py` lines 213-233): numeric columns coerced with
invalid/missing treated as 0, toggles filled with `False`, name stripped. -/
def cleanVehicle (rv : RawVehicle) : Vehicle :=
  { name := pyStrip rv.name
    cash := rv.cash.getD 0
    unfunded := rv.unfunded.getD 0
    uncalled := rv.uncalled.getD 0
    targetHold := rv.targetHold.getD 0
    revolverOn := rv.revolverOn.getD false
    ddtlOn := rv.ddtlOn.getD false }

/-- `compute_availability` (`src/app.py` lines 236-241):
Availability = Cash + Unfunded Commitments + Uncalled Capital. -/
def availability (v : Vehicle) : ℚ :=
  v.cash + v.unfunded + v.uncalled

/-- A cleaned deal row; the purely descriptive columns (dates, ratings,
leverage metrics, ...) are pass-through strings never consumed by the
allocator and are omitted from the model. -/
structure Deal where
  name : String
  tlTotal : ℚ
  revTotal : ℚ
  ddtlTotal : ℚ
deriving Repr, DecidableEq

/-- A raw deal row: facility sizes may be missing or non-numeric. -/
structure RawDeal where
  name : String
  tlTotal : Option ℚ
  revTotal : Option ℚ
  ddtlTotal : Option ℚ
deriving Repr, DecidableEq

/-- `clean_deals` (`src/app.py` lines 180-210), restricted to the columns the
allocator consumes: facility sizes coerced (invalid/missing → 0), name stripped. -/
def cleanDeal (rd : RawDeal) : Deal :=
  { name := pyStrip rd.name
    tlTotal := rd.tlTotal.getD 0
    revTotal := rd.revTotal.getD 0
    ddtlTotal := rd.ddtlTotal.getD 0 }

/-- `src/app.py` line 313: `deal_name = row.get("Deal", f"Deal {idx+1}") or f"Deal {idx+1}"`.
The cleaned name is falsy exactly when it is the empty string, in which case the
positional default is substituted. -/
def dealDisplayName (idx : Nat) (d : Deal) : String :=
  if d.name = "" then "Deal " ++ toString (idx + 1) else d.name

/-- `src/app.py` lines 316-322: the per-deal loop `continue`s when the display
name strips to empty and all three facility sizes are zero. -/
def dealSkipped (idx : Nat) (d : Deal) : Bool :=
  decide (pyStrip (dealDisplayName idx d) = "") &&
    decide (d.tlTotal = 0) && decide (d.revTotal = 0) && decide (d.ddtlTotal = 0)

/-- Term Loan eligibility (`src/app.py` line 365): positive availability. -/
def tlElig (v : Vehicle) : Bool :=
  decide (0 < availability v)

/-- Revolver eligibility (`src/app.py` lines 374-376): positive availability
and the per-vehicle Revolver toggle. -/
def revElig (v : Vehicle) : Bool :=
  decide (0 < availability v) && v.revolverOn

/-- DDTL eligibility (`src/app.py` lines 385-387): positive availability and
the per-vehicle DDTL toggle. -/
def ddtlElig (v : Vehicle) : Bool :=
  decide (0 < availability v) && v.ddtlOn

/-- The denominator `den = float(weights.sum())` of a facility's proration:
sum of availabilities over the eligibility-filtered vehicle table. -/
def eligWeightSum (vdf : List Vehicle) (elig : Vehicle → Bool) : ℚ :=
  ((vdf.filter elig).map availability).sum

/-- One facility's allocation to one vehicle (`src/app.py` lines 358-392):
the vector starts all-zero; when the facility total is positive and the
eligible weight sum `den` is positive, each eligible vehicle receives
`availability / den * total` and every other vehicle keeps 0. -/
def facilityAlloc (vdf : List Vehicle) (elig : Vehicle → Bool) (total : ℚ)
    (v : Vehicle) : ℚ :=
  if 0 < total then
    if 0 < eligWeightSum vdf elig then
      if elig v then availability v / eligWeightSum vdf elig * total else 0
    else 0
  else 0

/-- `deal_total = tl_total + rev_total + ddtl_total` (`src/app.py` line 356). -/
def dealTotal (d : Deal) : ℚ :=
  d.tlTotal + d.revTotal + d.ddtlTotal

/-- `vehicle_total_alloc = alloc_term + alloc_rev + alloc_ddtl`
(`src/app.py` line 466). -/
def vehicleTotalAlloc (vdf : List Vehicle) (d : Deal) (v : Vehicle) : ℚ :=
  facilityAlloc vdf tlElig d.tlTotal v + facilityAlloc vdf revElig d.revTotal v +
    facilityAlloc vdf ddtlElig d.ddtlTotal v

/-- The report section produced for one deal: the numeric content of the
allocation table, the tranche consistency check (size, sum, difference)
rows, and the two pro-rata percentage columns, where a `none` cell is the
blank string the code emits when a division guard fires. -/
structure DealReport where
  dealName : String
  allocTerm : List ℚ
  allocRev : List ℚ
  allocDdtl : List ℚ
  checkTerm : ℚ × ℚ × ℚ
  checkRev : ℚ × ℚ × ℚ
  checkDdtl : ℚ × ℚ × ℚ
  checkDeal : ℚ × ℚ × ℚ
  proRataShare : List (Option ℚ)
  pctOfTarget : List (Option ℚ)
deriving Repr, DecidableEq

/-- One iteration of the per-deal loop (`src/app.py` lines 324-513), after the
skip test: allocation vectors over the vehicle list, consistency-check rows,
and the pro-rata summary with its two guarded percentage columns
(lines 493-511). -/
def mkDealReport (vdf : List Vehicle) (idx : Nat) (d : Deal) : DealReport :=
  let allocT := vdf.map (facilityAlloc vdf tlElig d.tlTotal)
  let allocR := vdf.map (facilityAlloc vdf revElig d.revTotal)
  let allocD := vdf.map (facilityAlloc vdf ddtlElig d.ddtlTotal)
  let tlSum := allocT.sum
  let revSum := allocR.sum
  let ddtlSum := allocD.sum
  { dealName := dealDisplayName idx d
    allocTerm := allocT
    allocRev := allocR
    allocDdtl := allocD
    checkTerm := (d.tlTotal, tlSum, tlSum - d.tlTotal)
    checkRev := (d.revTotal, revSum, revSum - d.revTotal)
    checkDdtl := (d.ddtlTotal, ddtlSum, ddtlSum - d.ddtlTotal)
    checkDeal := (dealTotal d, tlSum + revSum + ddtlSum,
      tlSum + revSum + ddtlSum - dealTotal d)
    proRataShare :=
      if 0 < dealTotal d then
        vdf.map (fun v => some (vehicleTotalAlloc vdf d v / dealTotal d * 100))
      else
        vdf.map (fun _ => none)
    pctOfTarget :=
      vdf.map (fun v =>
        if 0 < v.targetHold then
          some (vehicleTotalAlloc vdf d v / v.targetHold * 100)
        else none) }

/-- The "Calculate Allocations" handler (`src/app.py` lines 266-513) on cleaned
tables: when no vehicle has positive availability the run aborts with the
blocking `st.error` (modelled as `none`) and nothing is produced; otherwise
each non-skipped deal row yields its report section. -/
def calculate (deals : List Deal) (vdf : List Vehicle) :
    Option (List DealReport) :=
  if (vdf.filter (fun v => decide (0 < availability v))).isEmpty then
    none
  else
    some ((deals.enum.filter (fun p => !dealSkipped p.1 p.2)).map
      (fun p => mkDealReport vdf p.1 p.2))

/-- The whole handler as a state transformer on the two input tables.
Every frame the source derives is a `df.copy()` (`src/app.py` lines 181, 214,
237, 274, 296) and the handler never writes into `deals_df`/`vehicles_df`,
so the post-run tables are the input tables unchanged, returned here
alongside the computed output. -/
def handlerStep (st : List RawDeal × List RawVehicle) :
    (List RawDeal × List RawVehicle) × Option (List DealReport) :=
  (st, calculate (st.1.map cleanDeal) (st.2.map cleanVehicle))

/-- Concrete vehicle `A` of the spec's scenarios: availability 10, Revolver
toggle off, DDTL toggle on. -/
def exA : Vehicle :=
  { name := "A", cash := 10, unfunded := 0, uncalled := 0, targetHold := 0
    revolverOn := false, ddtlOn := true }

/-- Concrete vehicle `B` of the spec's scenarios: availability 30, both
toggles on. -/
def exB : Vehicle :=
  { name := "B", cash := 30, unfunded := 0, uncalled := 0, targetHold := 0
    revolverOn := true, ddtlOn := true }

/-- A vehicle with zero availability and both toggles on. -/
def exZ : Vehicle :=
  { name := "Z", cash := 0, unfunded := 0, uncalled := 0, targetHold := 0
    revolverOn := true, ddtlOn := true }

/-- A vehicle with availability 10 used in the doubling scenario. -/
def exV : Vehicle :=
  { name := "V", cash := 10, unfunded := 0, uncalled := 0, targetHold := 0
    revolverOn := true, ddtlOn := true }

/-- `exV` with its cash (hence availability) doubled. -/
def exV2 : Vehicle :=
  { name := "V", cash := 20, unfunded := 0, uncalled := 0, targetHold := 0
    revolverOn := true, ddtlOn := true }

/-- A second eligible vehicle with availability 30 for the doubling scenario. -/
def exU : Vehicle :=
  { name := "U", cash := 30, unfunded := 0, uncalled := 0, targetHold := 0
    revolverOn := true, ddtlOn := true }

/-- A deal row whose three facility sizes are all zero. -/
def exDealZero : Deal :=
  { name := "D", tlTotal := 0, revTotal := 0, ddtlTotal := 0 }

/-- A fully blank deal row: stripped-empty name and all facility sizes zero. -/
def exDealBlank : Deal :=
  { name := "", tlTotal := 0, revTotal := 0, ddtlTotal := 0 }

/- ======================= Helper lemmas ======================= -/

/-- If stripping leaves the empty string, every character of the original
string is whitespace. -/
theorem pyStrip_eq_empty_all (s : String) (h : pyStrip s = "") :
    ∀ c ∈ s.data, c.isWhitespace = true := by
  have hdata :
      (((s.data.dropWhile Char.isWhitespace).reverse.dropWhile
        Char.isWhitespace).reverse) = [] := congrArg String.data h
  have h2 : ((s.data.dropWhile Char.isWhitespace).reverse.dropWhile
      Char.isWhitespace) = [] := List.reverse_eq_nil_iff.mp hdata
  have h3 : ∀ a ∈ (s.data.dropWhile Char.isWhitespace).reverse,
      Char.isWhitespace a = true := by
    intro a ha
    exact List.dropWhile_eq_nil_iff.mp h2 a ha
  intro c hc
  rw [← List.takeWhile_append_dropWhile Char.isWhitespace s.data] at hc
  rcases List.mem_append.mp hc with hmem | hmem
  · exact List.mem_takeWhile_imp hmem
  · exact h3 c (List.mem_reverse.mpr hmem)

/-- Dropping a whitespace prefix of a list all of whose remaining characters
are whitespace leaves nothing. -/
theorem dropWhile_all_nil (p : Char → Bool) (l : List Char)
    (h : ∀ a ∈ l.dropWhile p, p a = true) : l.dropWhile p = [] := by
  induction l with
  | nil => rfl
  | cons c l ih =>
    by_cases hc : p c = true
    · rw [List.dropWhile_cons_of_pos hc] at h ⊢
      exact ih h
    · rw [List.dropWhile_cons_of_neg hc] at h
      exact absurd (h c (List.mem_cons_self c l)) hc

/-- If every character of a stripped string is whitespace, the stripped
string is empty. -/
theorem pyStrip_empty_of_all (s : String)
    (h : ∀ c ∈ (pyStrip s).data, c.isWhitespace = true) : pyStrip s = "" := by
  have hk : ((s.data.dropWhile Char.isWhitespace).reverse.dropWhile
      Char.isWhitespace) = [] := by
    apply dropWhile_all_nil
    intro a ha
    exact h a (List.mem_reverse.mpr ha)
  apply String.ext
  show (((s.data.dropWhile Char.isWhitespace).reverse.dropWhile
    Char.isWhitespace).reverse) = []
  rw [hk]
  rfl

/-- A string containing a non-whitespace character does not strip to empty. -/
theorem pyStrip_ne_empty_of_mem (s : String) (c : Char) (hc : c ∈ s.data)
    (hw : c.isWhitespace = false) : pyStrip s ≠ "" := by
  intro h
  have := pyStrip_eq_empty_all s h c hc
  rw [hw] at this
  exact Bool.false_ne_true this

/-- Stripping an already non-trivially-stripped string again still leaves a
non-empty string. -/
theorem pyStrip_idem_ne (s : String) (h : pyStrip s ≠ "") :
    pyStrip (pyStrip s) ≠ "" := by
  intro h2
  exact h (pyStrip_empty_of_all s (pyStrip_eq_empty_all (pyStrip s) h2))

/-- Each of the three facility eligibility predicates of the code requires
strictly positive availability. -/
theorem avail_pos_of_elig {elig : Vehicle → Bool}
    (hfac : elig = tlElig ∨ elig = revElig ∨ elig = ddtlElig)
    {v : Vehicle} (h : elig v = true) : 0 < availability v := by
  rcases hfac with h1 | h1 | h1 <;> subst h1 <;>
    simp [tlElig, revElig, ddtlElig] at h <;> tauto

/-- The eligible weight sum is positive as soon as one vehicle of the table
is eligible. -/
theorem eligWeightSum_pos_of_mem {vdf : List Vehicle} {elig : Vehicle → Bool}
    (hfac : elig = tlElig ∨ elig = revElig ∨ elig = ddtlElig)
    {u : Vehicle} (hu : u ∈ vdf) (huel : elig u = true) :
    0 < eligWeightSum vdf elig := by
  have humem : u ∈ vdf.filter elig := List.mem_filter.mpr ⟨hu, huel⟩
  have hall : ∀ x ∈ (vdf.filter elig).map availability, 0 ≤ x := by
    intro x hx
    rcases List.mem_map.mp hx with ⟨w, hw, rfl⟩
    exact le_of_lt (avail_pos_of_elig hfac (List.mem_filter.mp hw).2)
  have hle : availability u ≤ ((vdf.filter elig).map availability).sum :=
    List.single_le_sum hall _ (List.mem_map_of_mem availability humem)
  exact lt_of_lt_of_le (avail_pos_of_elig hfac huel) hle

/-- The eligible weight sum is positive when the eligibility filter keeps at
least one row. -/
theorem eligWeightSum_pos_of_ne_nil {vdf : List Vehicle} {elig : Vehicle → Bool}
    (hfac : elig = tlElig ∨ elig = revElig ∨ elig = ddtlElig)
    (hne : vdf.filter elig ≠ []) : 0 < eligWeightSum vdf elig := by
  rcases List.exists_mem_of_ne_nil _ hne with ⟨u, hu⟩
  rcases List.mem_filter.mp hu with ⟨humem, huel⟩
  exact eligWeightSum_pos_of_mem hfac humem huel

/-- Summing availabilities each scaled by a common factor. -/
theorem sum_map_availability_mul (l : List Vehicle) (c : ℚ) :
    (l.map (fun v => availability v * c)).sum = (l.map availability).sum * c := by
  induction l with
  | nil => simp
  | cons v l ih => simp [ih, add_mul]

/-- The run aborts with the blocking error exactly when no vehicle has
positive availability. -/
theorem calculate_eq_none_iff (deals : List Deal) (vdf : List Vehicle) :
    calculate deals vdf = none ↔ ∀ v ∈ vdf, ¬ 0 < availability v := by
  have hkey : (vdf.filter (fun v => decide (0 < availability v))).isEmpty = true
      ↔ ∀ v ∈ vdf, ¬ 0 < availability v := by
    rw [List.isEmpty_iff, List.filter_eq_nil_iff]
    simp
  unfold calculate
  split_ifs with h
  · simpa using hkey.mp h
  · simp only [reduceCtorEq, false_iff]
    intro hall
    exact h (hkey.mpr hall)

/-- Splitting the eligible weight sum around one list element. -/
theorem eligWeightSum_middle (pre post : List Vehicle) (elig : Vehicle → Bool)
    (v : Vehicle) (hv : elig v = true) :
    eligWeightSum (pre ++ v :: post) elig =
      eligWeightSum (pre ++ post) elig + availability v := by
  unfold eligWeightSum
  simp only [List.filter_append, List.filter_cons, hv, if_true, List.map_append,
    List.map_cons, List.sum_append, List.sum_cons]
  ring

/- ======================= Claim theorems ======================= -/

/-- C1: for every facility (Term Loan, Revolver, DDTL) with total `T > 0`
whose eligible availabilities sum to a positive `S`, each eligible vehicle is
allocated `availability v / S * T` and every non-eligible vehicle is
allocated 0. -/
theorem facility_allocation_pro_rata (vdf : List Vehicle) (elig : Vehicle → Bool)
    (hfac : elig = tlElig ∨ elig = revElig ∨ elig = ddtlElig)
    (T : ℚ) (hT : 0 < T) (hS : 0 < eligWeightSum vdf elig) (v : Vehicle) :
    facilityAlloc vdf elig T v =
      if elig v then availability v / eligWeightSum vdf elig * T else 0 := by
  unfold facilityAlloc
  rw [if_pos hT, if_pos hS]

/-- Witness for C1: the spec's concrete scenario `A(avail=10), B(avail=30)`,
Term Loan total 100; `A` gets `10/40*100 = 25`. -/
theorem facility_allocation_pro_rata_witness :
    0 < (100 : ℚ) ∧ 0 < eligWeightSum [exA, exB] tlElig ∧
      facilityAlloc [exA, exB] tlElig 100 exA =
        (if tlElig exA then
          availability exA / eligWeightSum [exA, exB] tlElig * 100 else 0) ∧
      facilityAlloc [exA, exB] tlElig 100 exA = 25 := by
  have hS : 0 < eligWeightSum [exA, exB] tlElig := by
    norm_num [eligWeightSum, List.filter, tlElig, availability, exA, exB]
  refine ⟨by norm_num, hS, facility_allocation_pro_rata [exA, exB] tlElig
    (Or.inl rfl) 100 (by norm_num) hS exA, ?_⟩
  norm_num [facilityAlloc, eligWeightSum, List.filter, tlElig, availability,
    exA, exB]

/-- C2: for every facility with total `T > 0` and at least one eligible
vehicle, the allocated amounts over the eligible vehicles sum to exactly `T`
(the rational model is exact where the float code is exact up to rounding). -/
theorem facility_allocation_sums_to_total (vdf : List Vehicle)
    (elig : Vehicle → Bool)
    (hfac : elig = tlElig ∨ elig = revElig ∨ elig = ddtlElig)
    (T : ℚ) (hT : 0 < T) (hne : vdf.filter elig ≠ []) :
    ((vdf.filter elig).map (facilityAlloc vdf elig T)).sum = T := by
  have hS : 0 < eligWeightSum vdf elig := eligWeightSum_pos_of_ne_nil hfac hne
  have hmap : (vdf.filter elig).map (facilityAlloc vdf elig T)
      = (vdf.filter elig).map
          (fun v => availability v * (T / eligWeightSum vdf elig)) := by
    apply List.map_congr_left
    intro v hv
    have hel : elig v = true := (List.mem_filter.mp hv).2
    unfold facilityAlloc
    rw [if_pos hT, if_pos hS, if_pos hel]
    ring
  rw [hmap, sum_map_availability_mul]
  show eligWeightSum vdf elig * (T / eligWeightSum vdf elig) = T
  field_simp

/-- Witness for C2: with `A(avail=10), B(avail=30)` and Term Loan total 100,
the eligible allocations sum to 100. -/
theorem facility_allocation_sums_to_total_witness :
    0 < (100 : ℚ) ∧ [exA, exB].filter tlElig ≠ [] ∧
      (([exA, exB].filter tlElig).map
        (facilityAlloc [exA, exB] tlElig 100)).sum = 100 := by
  have hne : [exA, exB].filter tlElig ≠ [] := by
    have hfe : [exA, exB].filter tlElig = [exA, exB] := by
      norm_num [List.filter, tlElig, availability, exA, exB]
    rw [hfe]
    exact List.cons_ne_nil _ _
  exact ⟨by norm_num, hne,
    facility_allocation_sums_to_total [exA, exB] tlElig (Or.inl rfl) 100
      (by norm_num) hne⟩

/-- C3: eligibility gating — the Term Loan allocation is positive only for
positive availability (there is no Term Loan opt-out), the Revolver/DDTL
allocations are 0 unless availability is positive and the matching toggle is
on, and a vehicle with non-positive availability receives 0 from every
facility regardless of its toggles. -/
theorem allocation_eligibility_gating (vdf : List Vehicle) (tl rev ddtl : ℚ)
    (v : Vehicle) :
    (0 < facilityAlloc vdf tlElig tl v → 0 < availability v) ∧
    (¬ (0 < availability v ∧ v.revolverOn = true) →
      facilityAlloc vdf revElig rev v = 0) ∧
    (¬ (0 < availability v ∧ v.ddtlOn = true) →
      facilityAlloc vdf ddtlElig ddtl v = 0) ∧
    (availability v ≤ 0 →
      facilityAlloc vdf tlElig tl v = 0 ∧ facilityAlloc vdf revElig rev v = 0 ∧
        facilityAlloc vdf ddtlElig ddtl v = 0) := by
  refine ⟨?_, ?_, ?_, ?_⟩
  · intro h
    unfold facilityAlloc at h
    split_ifs at h with h1 h2 h3
    · simpa [tlElig] using h3
    all_goals exact absurd h (lt_irrefl 0)
  · intro h
    have he : revElig v = false := by
      rcases Bool.eq_false_or_eq_true v.revolverOn with hb | hb
      · have hna : ¬ 0 < availability v := fun hpos => h ⟨hpos, hb⟩
        simp [revElig, hna]
      · simp [revElig, hb]
    simp [facilityAlloc, he]
  · intro h
    have he : ddtlElig v = false := by
      rcases Bool.eq_false_or_eq_true v.ddtlOn with hb | hb
      · have hna : ¬ 0 < availability v := fun hpos => h ⟨hpos, hb⟩
        simp [ddtlElig, hna]
      · simp [ddtlElig, hb]
    simp [facilityAlloc, he]
  · intro h
    have h1 : tlElig v = false := by
      simp [tlElig, not_lt.mpr h]
    have h2 : revElig v = false := by
      simp [revElig, not_lt.mpr h]
    have h3 : ddtlElig v = false := by
      simp [ddtlElig, not_lt.mpr h]
    exact ⟨by simp [facilityAlloc, h1], by simp [facilityAlloc, h2],
      by simp [facilityAlloc, h3]⟩

/-- Witness for C3: the zero-availability vehicle `Z` (both toggles on)
receives 0 from all three facilities. -/
theorem allocation_eligibility_gating_witness :
    availability exZ ≤ 0 ∧
      (facilityAlloc [exZ, exB] tlElig 100 exZ = 0 ∧
        facilityAlloc [exZ, exB] revElig 100 exZ = 0 ∧
        facilityAlloc [exZ, exB] ddtlElig 100 exZ = 0) := by
  have hz : availability exZ ≤ 0 := by norm_num [availability, exZ]
  exact ⟨hz, (allocation_eligibility_gating [exZ, exB] 100 100 100 exZ).2.2.2 hz⟩

/-- C4: the whole run aborts with the blocking error (producing no report at
all) exactly when no vehicle has positive availability; with at least one
positively-available vehicle the blocking error cannot occur. -/
theorem blocking_error_iff_no_availability (deals : List Deal)
    (vdf : List Vehicle) :
    calculate deals vdf = none ↔ ∀ v ∈ vdf, ¬ 0 < availability v :=
  calculate_eq_none_iff deals vdf

/-- Witness for C4: the spec's concrete scenario — a single vehicle with
zero availability makes the whole run abort with the blocking error. -/
theorem blocking_error_iff_no_availability_witness :
    calculate [exDealZero] [exZ] = none := by
  refine (blocking_error_iff_no_availability [exDealZero] [exZ]).mpr ?_
  intro v hv
  rw [List.mem_singleton.mp hv]
  norm_num [availability, exZ]

/-- C5: when a facility's eligible weight sum is not positive, every vehicle
receives 0 for that facility, and as long as some vehicle has positive
availability the run still completes without any error. -/
theorem empty_eligible_set_is_silent (vdf : List Vehicle)
    (elig : Vehicle → Bool)
    (hfac : elig = tlElig ∨ elig = revElig ∨ elig = ddtlElig)
    (T : ℚ) (hT : 0 < T) (v : Vehicle)
    (hden : ¬ 0 < eligWeightSum vdf elig)
    (deals : List Deal) (w : Vehicle) (hw : w ∈ vdf)
    (hwpos : 0 < availability w) :
    facilityAlloc vdf elig T v = 0 ∧ calculate deals vdf ≠ none := by
  constructor
  · simp [facilityAlloc, hden]
  · intro hnone
    exact (calculate_eq_none_iff deals vdf).mp hnone w hw hwpos

/-- Witness for C5: `A` has availability 10 but its Revolver toggle is off,
so a Revolver total of 50 is silently not distributed while the run still
produces output. -/
theorem empty_eligible_set_is_silent_witness :
    0 < (50 : ℚ) ∧ ¬ 0 < eligWeightSum [exA] revElig ∧
      exA ∈ [exA] ∧ 0 < availability exA ∧
      (facilityAlloc [exA] revElig 50 exA = 0 ∧
        calculate [exDealZero] [exA] ≠ none) := by
  have hden : ¬ 0 < eligWeightSum [exA] revElig := by
    norm_num [eligWeightSum, List.filter, revElig, availability, exA]
  have hpos : 0 < availability exA := by norm_num [availability, exA]
  exact ⟨by norm_num, hden, List.mem_singleton_self exA, hpos,
    empty_eligible_set_is_silent [exA] revElig (Or.inr (Or.inl rfl)) 50
      (by norm_num) exA hden [exDealZero] exA (List.mem_singleton_self exA)
      hpos⟩

/-- C6: availability is the arithmetic sum of cash, unfunded commitments and
uncalled capital, with missing or non-numeric cells coerced to zero; the
cleaning pass is total, so no validation error is ever raised. -/
theorem availability_is_coerced_sum (rv : RawVehicle) :
    availability (cleanVehicle rv) =
      rv.cash.getD 0 + rv.unfunded.getD 0 + rv.uncalled.getD 0 := rfl

/-- C7: the reporting divisions are guarded — the deal-share percentage
column is all-blank when the deal total is not positive, and a vehicle's
"% of Target Hold" cell is blank when its target hold is not positive;
both are ordinary values, not errors. -/
theorem report_division_guards (vdf : List Vehicle) (idx : Nat) (d : Deal) :
    (¬ 0 < dealTotal d →
      (mkDealReport vdf idx d).proRataShare = vdf.map (fun _ => none)) ∧
    (∀ i (hi : i < vdf.length), ¬ 0 < vdf[i].targetHold →
      (mkDealReport vdf idx d).pctOfTarget[i]? = some none) := by
  constructor
  · intro h
    simp [mkDealReport, h]
  · intro i hi ht
    simp [mkDealReport, List.getElem?_map, List.getElem?_eq_getElem hi, ht]

/-- Witness for C7: an all-zero deal against the zero-target vehicle `Z`
yields blank cells in both percentage columns. -/
theorem report_division_guards_witness :
    ¬ 0 < dealTotal exDealZero ∧ ¬ 0 < exZ.targetHold ∧
      (mkDealReport [exZ] 0 exDealZero).proRataShare = [none] ∧
      (mkDealReport [exZ] 0 exDealZero).pctOfTarget[0]? = some none := by
  have hd : ¬ 0 < dealTotal exDealZero := by
    norm_num [dealTotal, exDealZero]
  have ht : ¬ 0 < exZ.targetHold := by norm_num [exZ]
  refine ⟨hd, ht, ?_, ?_⟩
  · have := (report_division_guards [exZ] 0 exDealZero).1 hd
    simpa using this
  · exact (report_division_guards [exZ] 0 exDealZero).2 0 (by norm_num) ht

/-- C8: with a facility total `T > 0` and at least two eligible vehicles,
doubling one eligible vehicle's availability (all other rows fixed) strictly
increases its allocated amount and strictly decreases every other eligible
vehicle's allocated amount. -/
theorem doubling_availability_monotone (pre post : List Vehicle)
    (elig : Vehicle → Bool)
    (hfac : elig = tlElig ∨ elig = revElig ∨ elig = ddtlElig)
    (v v' u : Vehicle)
    (hv : elig v = true) (hv' : elig v' = true) (hu : elig u = true)
    (hdouble : availability v' = 2 * availability v)
    (humem : u ∈ pre ++ post)
    (T : ℚ) (hT : 0 < T) :
    facilityAlloc (pre ++ v :: post) elig T v <
        facilityAlloc (pre ++ v' :: post) elig T v' ∧
      facilityAlloc (pre ++ v' :: post) elig T u <
        facilityAlloc (pre ++ v :: post) elig T u := by
  have hapos : 0 < availability v := avail_pos_of_elig hfac hv
  have hbpos : 0 < availability u := avail_pos_of_elig hfac hu
  have hR : 0 < eligWeightSum (pre ++ post) elig :=
    eligWeightSum_pos_of_mem hfac humem hu
  set a := availability v with ha
  set R := eligWeightSum (pre ++ post) elig with hRdef
  have hS1 : eligWeightSum (pre ++ v :: post) elig = R + a :=
    eligWeightSum_middle pre post elig v hv
  have hS2 : eligWeightSum (pre ++ v' :: post) elig = R + 2 * a := by
    rw [eligWeightSum_middle pre post elig v' hv', hdouble]
  have hS1pos : 0 < R + a := by linarith
  have hS2pos : 0 < R + 2 * a := by linarith
  have e1 : facilityAlloc (pre ++ v :: post) elig T v = a / (R + a) * T := by
    unfold facilityAlloc
    rw [hS1, if_pos hT, if_pos hS1pos, if_pos hv]
  have e2 : facilityAlloc (pre ++ v' :: post) elig T v'
      = 2 * a / (R + 2 * a) * T := by
    unfold facilityAlloc
    rw [hS2, if_pos hT, if_pos hS2pos, if_pos hv', hdouble]
  have e3 : facilityAlloc (pre ++ v' :: post) elig T u
      = availability u / (R + 2 * a) * T := by
    unfold facilityAlloc
    rw [hS2, if_pos hT, if_pos hS2pos, if_pos hu]
  have e4 : facilityAlloc (pre ++ v :: post) elig T u
      = availability u / (R + a) * T := by
    unfold facilityAlloc
    rw [hS1, if_pos hT, if_pos hS1pos, if_pos hu]
  constructor
  · rw [e1, e2, div_mul_eq_mul_div, div_mul_eq_mul_div,
      div_lt_div_iff₀ hS1pos hS2pos]
    nlinarith [mul_pos (mul_pos hapos hT) hR]
  · rw [e3, e4, div_mul_eq_mul_div, div_mul_eq_mul_div,
      div_lt_div_iff₀ hS2pos hS1pos]
    nlinarith [mul_pos (mul_pos hbpos hT) hapos]

/-- Witness for C8: doubling `V`'s availability from 10 to 20 next to
`U(avail=30)` with a Term Loan total of 100 raises `V`'s amount and lowers
`U`'s. -/
theorem doubling_availability_monotone_witness :
    tlElig exV = true ∧ tlElig exV2 = true ∧ tlElig exU = true ∧
      availability exV2 = 2 * availability exV ∧ 0 < (100 : ℚ) ∧
      (facilityAlloc [exV, exU] tlElig 100 exV <
          facilityAlloc [exV2, exU] tlElig 100 exV2 ∧
        facilityAlloc [exV2, exU] tlElig 100 exU <
          facilityAlloc [exV, exU] tlElig 100 exU) := by
  have h1 : tlElig exV = true := by norm_num [tlElig, availability, exV]
  have h2 : tlElig exV2 = true := by norm_num [tlElig, availability, exV2]
  have h3 : tlElig exU = true := by norm_num [tlElig, availability, exU]
  have hd : availability exV2 = 2 * availability exV := by
    norm_num [availability, exV, exV2]
  exact ⟨h1, h2, h3, hd, by norm_num,
    doubling_availability_monotone [] [exU] tlElig (Or.inl rfl) exV exV2 exU
      h1 h2 h3 hd (by simp) 100 (by norm_num)⟩

/-- C9: the handler, modelled as a state transformer over the two input
tables, returns the tables unchanged (every derived frame in the source is a
copy) and is deterministic: a second run on the post-run state yields the
identical output. -/
theorem handler_deterministic_no_mutation (ds : List RawDeal)
    (vs : List RawVehicle) :
    (handlerStep (ds, vs)).1 = (ds, vs) ∧
      (handlerStep (handlerStep (ds, vs)).1).2 = (handlerStep (ds, vs)).2 :=
  ⟨rfl, rfl⟩

/-- Witness for C9 at a concrete state: a one-row deals table and a one-row
vehicles table pass through the handler unchanged with a stable output. -/
theorem handler_deterministic_no_mutation_witness :
    (handlerStep ([⟨"ABC", some 100, some 25, some 5⟩],
        [⟨"F1", some 10, some 5, some 5, some 40, some true, some true⟩])).1 =
      ([⟨"ABC", some 100, some 25, some 5⟩],
        [⟨"F1", some 10, some 5, some 5, some 40, some true, some true⟩]) ∧
      (handlerStep (handlerStep ([⟨"ABC", some 100, some 25, some 5⟩],
        [⟨"F1", some 10, some 5, some 5, some 40, some true, some true⟩])).1).2 =
      (handlerStep ([⟨"ABC", some 100, some 25, some 5⟩],
        [⟨"F1", some 10, some 5, some 5, some 40, some true, some true⟩])).2 :=
  handler_deterministic_no_mutation
    [⟨"ABC", some 100, some 25, some 5⟩]
    [⟨"F1", some 10, some 5, some 5, some 40, some true, some true⟩]

/-- Counterexample to C10: a deal row with a blank name and all three
facility sizes zero is NOT skipped — line 313 of `src/app.py` replaces the
falsy blank name with `"Deal {idx+1}"` before the skip test of line 317, so
the test's name-is-blank conjunct is never true. -/
theorem blank_deal_row_not_skipped :
    (exDealBlank.name = "" ∧ exDealBlank.tlTotal = 0 ∧
      exDealBlank.revTotal = 0 ∧ exDealBlank.ddtlTotal = 0) ∧
      dealSkipped 0 exDealBlank = false :=
  ⟨⟨rfl, rfl, rfl, rfl⟩, rfl⟩

/-- C10 amended: no cleaned deal row is ever skipped — the `or`-default of
line 313 substitutes the non-blank name `"Deal {idx+1}"` whenever the
stripped name is empty, so the skip condition of lines 316-322 is dead code
and every deal row produces a full report section. -/
theorem deal_rows_never_skipped (idx : Nat) (rd : RawDeal) :
    dealSkipped idx (cleanDeal rd) = false := by
  have hname : (cleanDeal rd).name = pyStrip rd.name := rfl
  have h : pyStrip (dealDisplayName idx (cleanDeal rd)) ≠ "" := by
    unfold dealDisplayName
    by_cases hb : (cleanDeal rd).name = ""
    · rw [if_pos hb]
      refine pyStrip_ne_empty_of_mem _ 'D' ?_ (by decide)
      rw [String.data_append]
      exact List.mem_append_left _ (by decide)
    · rw [if_neg hb]
      rw [hname] at hb ⊢
      exact pyStrip_idem_ne _ hb
  unfold dealSkipped
  simp [h]

end AssetAlloc
